import Mathlib

/-!
Verification of the slipstream-relayer gasless transfer pipeline.

The definitions below are shallow embeddings of the TypeScript services:
* `convertFromUsd`, `getPrice` — src/services/pythPriceService.ts
  (floating-point USD conversion is modelled with exact rationals,
  rounding toward minus infinity as Math.floor does for the values
  reached on this path);
* `calculateFee` — the Express RelayerService.calculateFee in
  src/services/chain-config.service.ts (BigInt arithmetic; BigInt
  division of nonnegative operands is Nat division);
* `nestCalculateFee`, `parseUnits` — the NestJS RelayerService.calculateFee
  in src/services/relayer.service.ts (ethers.parseUnits succeeds exactly
  when minFeeUsd is representable in the token decimals, else it throws,
  which the service surfaces as a thrown error, modelled as none);
* `estimateGas` — GasService.estimateGas in src/services/gasService.ts;
* `generateMessageHash`, `verifySignature` — ContractManagerService in
  src/services/contract-manager.service.ts, with keccak256 and ECDSA
  public-key recovery abstracted as function parameters (ethers
  verifyMessage hashes the EIP-191 prefixed message and recovers);
* `checkReplayProtection`, `relayStandardTransfer`, `relayPermitTransfer`,
  `checkPermitSupport` — the Express RelayerService in
  src/services/chain-config.service.ts.  Network effects (the on-chain
  nonce read, gas estimation, submission) are recorded in an explicit
  trace of `NetCall`s, and their outcomes are drawn from a `ChainEnv`
  that fixes what the chain would answer during the call.
-/

/-- Fee settings of a chain (config/chainConfig.ts feeSettings).
Defaults: baseFeeBps 25, maxFeeBps 500, minFeeUsd 0.10. -/
structure FeeSettings where
  baseFeeBps : ℕ
  maxFeeBps : ℕ
  minFeeUsd : ℚ
deriving DecidableEq

/-- PythPriceService.convertFromUsd: converts a USD amount into token base
units at the oracle price.  The source returns the string "0" when the
price is null or zero, and otherwise Math.floor(usdAmount / price * 10^decimals). -/
def convertFromUsd (usdAmount : ℚ) (tokenDecimals : ℕ) (price : Option ℚ) : ℤ :=
  match price with
  | none => 0
  | some p => if p = 0 then 0 else ⌊usdAmount / p * (10 : ℚ) ^ tokenDecimals⌋

/-- Express RelayerService.calculateFee (chain-config.service.ts lines 191-286):
percentage fee, minimum-fee floor via the oracle, then the max-fee cap.
The price argument is the oracle result for the token feed (none when the
token has no feed or the fetch failed, in which case minFeeTokens stays 0). -/
def calculateFee (fs : FeeSettings) (tokenDecimals : ℕ) (price : Option ℚ) (amount : ℕ) : ℤ :=
  let percentageFee : ℕ := amount * fs.baseFeeBps / 10000
  let minFeeTokens : ℤ := convertFromUsd fs.minFeeUsd tokenDecimals price
  let calculatedFee : ℤ := max (percentageFee : ℤ) minFeeTokens
  let maxFeeAllowed : ℕ := amount * fs.maxFeeBps / 10000
  min calculatedFee (maxFeeAllowed : ℤ)

/-- ethers.parseUnits(value.toString(), decimals): the exact scaling
value * 10^decimals when it is an integer; ethers throws otherwise
(fractional component exceeds decimals). -/
def parseUnits (value : ℚ) (decimals : ℕ) : Option ℤ :=
  let scaled : ℚ := value * (10 : ℚ) ^ decimals
  if scaled.den = 1 then some scaled.num else none

/-- NestJS RelayerService.calculateFee (relayer.service.ts lines 27-75):
identical to the Express version except that the minimum-fee floor is
ethers.parseUnits(minFeeUsd, decimals) — no price oracle involved.
A parseUnits failure propagates as the thrown Failed-to-calculate-fee error. -/
def nestCalculateFee (fs : FeeSettings) (tokenDecimals : ℕ) (amount : ℕ) : Option ℤ :=
  match parseUnits fs.minFeeUsd tokenDecimals with
  | none => none
  | some minFeeTokens =>
      let percentageFee : ℕ := amount * fs.baseFeeBps / 10000
      let calculatedFee : ℤ := max (percentageFee : ℤ) minFeeTokens
      let maxFeeAllowed : ℕ := amount * fs.maxFeeBps / 10000
      some (min calculatedFee (maxFeeAllowed : ℤ))

/-- GasService.estimateGas (gasService.ts lines 33-71), success path:
bufferedGas = (gasEstimate * 120n) / 100n, capped at the configured
gasSettings.gasLimit. -/
def estimateGas (rawEstimate gasLimitCap : ℕ) : ℕ :=
  let bufferedGas : ℕ := rawEstimate * 120 / 100
  if bufferedGas > gasLimitCap then gasLimitCap else bufferedGas

/-- One entry of the PythPriceService price cache. -/
structure CacheEntry where
  price : ℚ
  timestamp : ℕ
deriving DecidableEq

/-- Outcome of the outbound Hermes fetch in PythPriceService.getPrice:
parsed price data, an empty parsed result set, or a thrown error
(network failure or timeout). -/
inductive FetchOutcome where
  | ok (mantissa : ℤ) (expo : ℤ)
  | emptyResult
  | failure
deriving DecidableEq

/-- PythPriceService.CACHE_DURATION_MS. -/
def CACHE_DURATION_MS : ℕ := 30000

/-- The fetch-and-parse tail of PythPriceService.getPrice, reached when the
cache has no fresh entry: on parsed data, price = mantissa * 10^expo is
cached and returned; an empty result or a thrown error yields null and
leaves the cache unchanged. -/
def fetchLatestPrice (cache : Option CacheEntry) (now : ℕ) :
    FetchOutcome → Option ℚ × Option CacheEntry
  | FetchOutcome.ok mantissa expo =>
      let p : ℚ := (mantissa : ℚ) * (10 : ℚ) ^ expo
      (some p, some ⟨p, now⟩)
  | FetchOutcome.emptyResult => (none, cache)
  | FetchOutcome.failure => (none, cache)

/-- PythPriceService.getPrice (pythPriceService.ts lines 37-79): serve the
cached price when it is younger than CACHE_DURATION_MS, otherwise fetch.
Returns the result together with the cache after the call. -/
def getPrice (cache : Option CacheEntry) (now : ℕ) (fetch : FetchOutcome) :
    Option ℚ × Option CacheEntry :=
  match cache with
  | some cached =>
      if now - cached.timestamp < CACHE_DURATION_MS then (some cached.price, some cached)
      else fetchLatestPrice cache now fetch
  | none => fetchLatestPrice cache now fetch

/-- UTF-8 code points of an ASCII string, as bytes. -/
def asciiBytes (s : String) : List ℕ := s.data.map Char.toNat

/-- Big-endian byte encoding of a value into a fixed width, as produced by
abi.encodePacked for the corresponding Solidity type. -/
def toBytesBE : ℕ → ℕ → List ℕ
  | 0, _ => []
  | width + 1, value => toBytesBE width (value / 256) ++ [value % 256]

/-- encodePacked of an address: 20 bytes. -/
def encAddress (a : ℕ) : List ℕ := toBytesBE 20 a

/-- encodePacked of a uint256: 32 bytes. -/
def encUint256 (v : ℕ) : List ℕ := toBytesBE 32 v

/-- abi.encodePacked(contractAddress, from, to, token, amount, fee, nonce,
deadline) with types address,address,address,address,uint256,uint256,
uint256,uint256 — the byte string hashed by
ContractManagerService.generateMessageHash. -/
def packedTransferMessage
    (contractAddress fromAddr toAddr token amount fee nonce deadline : ℕ) : List ℕ :=
  encAddress contractAddress ++ encAddress fromAddr ++ encAddress toAddr ++
    encAddress token ++ encUint256 amount ++ encUint256 fee ++
    encUint256 nonce ++ encUint256 deadline

/-- Result record of ContractManagerService.generateMessageHash. -/
structure MessageHashResult where
  messageHash : List ℕ
  ethSignedMessageHash : List ℕ

/-- ContractManagerService.generateMessageHash (lines 156-193):
messageHash = keccak256(encodePacked fields), and
ethSignedMessageHash = keccak256(encodePacked("\x19Ethereum Signed Message:\n32", messageHash)).
keccak256 is abstracted as a function parameter. -/
def generateMessageHash (keccak256 : List ℕ → List ℕ)
    (contractAddress fromAddr toAddr token amount fee nonce deadline : ℕ) :
    MessageHashResult :=
  let messageHash :=
    keccak256 (packedTransferMessage contractAddress fromAddr toAddr token
      amount fee nonce deadline)
  { messageHash := messageHash
    ethSignedMessageHash :=
      keccak256 (asciiBytes "\x19Ethereum Signed Message:\n32" ++ messageHash) }

/-- The EIP-191 personal-message envelope that ethers.verifyMessage hashes:
"\x19Ethereum Signed Message:\n" followed by the decimal byte length and the
message bytes. -/
def eip191Envelope (message : List ℕ) : List ℕ :=
  asciiBytes ("\x19Ethereum Signed Message:\n" ++ toString message.length) ++ message

/-- ContractManagerService.verifySignature (lines 195-210):
ethers.verifyMessage(getBytes(messageHash), signature) hashes the EIP-191
envelope of the 32 message bytes with keccak256 and recovers the signer;
the recovered address is compared case-insensitively with the expected
signer.  Recovery failure (malformed signature, ethers throws) is the none
case of the abstract ecrecover and yields false. -/
def verifySignature (keccak256 : List ℕ → List ℕ)
    (ecrecover : List ℕ → List ℕ → Option String)
    (messageHash : List ℕ) (signature : List ℕ) (expectedSigner : String) : Bool :=
  match ecrecover (keccak256 (eip191Envelope messageHash)) signature with
  | some recovered => decide (recovered.toLower = expectedSigner.toLower)
  | none => false

/-- The per-request fields of a relay request (types GaslessTransactionRequest). -/
structure RelayTransactionRequest where
  fromAddress : String
  toAddress : String
  tokenContract : String
  transferAmount : ℕ
  relayerServiceFee : ℕ
  transactionNonce : ℕ
  expirationDeadline : ℤ
deriving DecidableEq

/-- ERC-2612 permit data attached to a permit-based relay request. -/
structure PermitData where
  approvalValue : ℕ
  permitDeadline : ℕ
  signatureV : ℕ
  signatureR : String
  signatureS : String
deriving DecidableEq

/-- A relay request as received by the Express RelayerService. -/
structure RelayRequest where
  chainId : ℕ
  request : RelayTransactionRequest
  permit : Option PermitData
  signature : String
deriving DecidableEq

/-- What the chain and the local crypto would answer during one pipeline
call: whether getChainConfig(chainId) finds the chain, the outcome of the
EIP-712 signature recovery comparison, the current on-chain user nonce,
whether the token reports ERC-2612 permit support, whether gas estimation
and submission succeed, and the current unix time. -/
structure ChainEnv where
  chainSupported : Bool
  signatureValid : Bool
  onChainNonce : ℕ
  permitSupported : Bool
  submitOk : Bool
  now : ℤ
deriving DecidableEq

/-- Outbound network calls a pipeline run can make, in order. -/
inductive NetCall where
  | nonceRead
  | permitSupportCheck
  | gasEstimate
  | submitTx
deriving DecidableEq

/-- The in-process idempotency key `chainId:fromAddress:nonce`. -/
def txKey (chainId : ℕ) (fromAddress : String) (nonce : ℕ) : String :=
  toString chainId ++ ":" ++ fromAddress ++ ":" ++ toString nonce

/-- RelayerService.checkReplayProtection (chain-config.service.ts lines
342-361): reject if the idempotency key was recorded (no network call),
otherwise read the on-chain nonce and allow exactly when the submitted
nonce equals it. -/
def checkReplayProtection (env : ChainEnv) (processed : List String)
    (req : RelayRequest) : Bool × List NetCall :=
  let key := txKey req.chainId req.request.fromAddress req.request.transactionNonce
  if processed.contains key then (false, [])
  else (decide (env.onChainNonce = req.request.transactionNonce), [NetCall.nonceRead])

/-- RelayerService.checkPermitSupport (chain-config.service.ts lines
810-818): an on-chain call to checkERC2612PermitSupport. -/
def checkPermitSupport (env : ChainEnv) : Bool × List NetCall :=
  (env.permitSupported, [NetCall.permitSupportCheck])

/-- The success flag and message of a RelayResponse. -/
structure RelayResponse where
  success : Bool
  message : String
deriving DecidableEq

/-- A pipeline run: its response, the idempotency set after the run, and
the trace of outbound network calls it made. -/
structure RelayStepResult where
  response : RelayResponse
  processed : List String
  calls : List NetCall
deriving DecidableEq

/-- RelayerService.relayStandardTransfer (chain-config.service.ts lines
366-484): chain lookup, signature verification (local), replay protection
(on-chain nonce read), deadline check, then gas estimation and submission;
the idempotency key is recorded only after successful submission. -/
def relayStandardTransfer (env : ChainEnv) (processed : List String)
    (req : RelayRequest) : RelayStepResult :=
  if !env.chainSupported then
    ⟨⟨false, "Unsupported chain"⟩, processed, []⟩
  else if !env.signatureValid then
    ⟨⟨false, "Invalid signature"⟩, processed, []⟩
  else
    let replay := checkReplayProtection env processed req
    if !replay.1 then
      ⟨⟨false, "Transaction already processed or invalid nonce"⟩, processed, replay.2⟩
    else if req.request.expirationDeadline ≤ env.now then
      ⟨⟨false, "Transaction deadline expired"⟩, processed, replay.2⟩
    else if !env.submitOk then
      ⟨⟨false, "Failed to process transaction"⟩, processed,
        replay.2 ++ [NetCall.gasEstimate]⟩
    else
      ⟨⟨true, "Transaction submitted successfully"⟩,
        txKey req.chainId req.request.fromAddress req.request.transactionNonce :: processed,
        replay.2 ++ [NetCall.gasEstimate, NetCall.submitTx]⟩

/-- RelayerService.relayPermitTransfer (chain-config.service.ts lines
489-625): identical to the standard path except that it first requires
permit data to be present and submits the permit-based entry point.  The
source performs no ERC-2612 support check anywhere on this path. -/
def relayPermitTransfer (env : ChainEnv) (processed : List String)
    (req : RelayRequest) : RelayStepResult :=
  match req.permit with
  | none => ⟨⟨false, "Permit data required for permit-based transfer"⟩, processed, []⟩
  | some _ =>
    if !env.chainSupported then
      ⟨⟨false, "Unsupported chain"⟩, processed, []⟩
    else if !env.signatureValid then
      ⟨⟨false, "Invalid signature"⟩, processed, []⟩
    else
      let replay := checkReplayProtection env processed req
      if !replay.1 then
        ⟨⟨false, "Transaction already processed or invalid nonce"⟩, processed, replay.2⟩
      else if req.request.expirationDeadline ≤ env.now then
        ⟨⟨false, "Transaction deadline expired"⟩, processed, replay.2⟩
      else if !env.submitOk then
        ⟨⟨false, "Failed to process transaction"⟩, processed,
          replay.2 ++ [NetCall.gasEstimate]⟩
      else
        ⟨⟨true, "Transaction submitted successfully"⟩,
          txKey req.chainId req.request.fromAddress req.request.transactionNonce :: processed,
          replay.2 ++ [NetCall.gasEstimate, NetCall.submitTx]⟩

/-- The integer floor of a quotient of naturals is ℕ division. -/
theorem intFloor_natCast_div (a b : ℕ) : ⌊(a : ℚ) / (b : ℚ)⌋ = ((a / b : ℕ) : ℤ) := by
  rw [← Int.natCast_floor_eq_floor (by positivity), Nat.floor_div_nat, Nat.floor_natCast]

/-- The basis-point fee term of the services is the rational floor the spec
describes. -/
theorem intFloor_mul_bps (amount bps : ℕ) :
    ⌊((amount : ℚ) * bps) / 10000⌋ = ((amount * bps / 10000 : ℕ) : ℤ) := by
  have h : ((amount : ℚ) * bps) / 10000 = ((amount * bps : ℕ) : ℚ) / ((10000 : ℕ) : ℚ) := by
    push_cast
    ring
  rw [h, intFloor_natCast_div]

/-- Clamping max-then-min keeps the fee between the percentage fee and the
cap whenever the percentage fee does not exceed the cap. -/
theorem feeClampBounds (pct maxA : ℕ) (m : ℤ) (h : pct ≤ maxA) :
    0 ≤ min (max (pct : ℤ) m) (maxA : ℤ) ∧
    (pct : ℤ) ≤ min (max (pct : ℤ) m) (maxA : ℤ) ∧
    min (max (pct : ℤ) m) (maxA : ℤ) ≤ (maxA : ℤ) := by
  have hpm : (pct : ℤ) ≤ (maxA : ℤ) := by exact_mod_cast h
  refine ⟨?_, ?_, min_le_right _ _⟩
  · exact le_min (le_trans (Int.natCast_nonneg pct) (le_max_left _ _)) (Int.natCast_nonneg maxA)
  · exact le_min (le_max_left _ _) hpm

/-- A rational with denominator one floors to its numerator. -/
theorem ratFloor_den_one (q : ℚ) (h : q.den = 1) : ⌊q⌋ = q.num := by
  conv_lhs => rw [← (Rat.den_eq_one_iff q).mp h]
  exact Int.floor_intCast q.num

/-- C1 (amended).  Fee algorithm: with an available oracle price p > 0,
calculateFee returns min(max(floor(amount * baseFeeBps / 10000),
floor(minFeeUsd / p * 10^decimals)), floor(amount * maxFeeBps / 10000)).
For amount 1_000_000 on a 6-decimal token with baseFeeBps 25,
minFeeUsd 0.10 and usdPrice 1.00, the result is min(100000,
floor(1_000_000 * maxFeeBps / 10000)): it equals 100000 whenever
maxFeeBps is at least 1000, but under the repository default
maxFeeBps = 500 the cap binds and the returned fee is 50000. -/
theorem fee_algorithm_formula_and_example :
    (∀ (fs : FeeSettings) (tokenDecimals : ℕ) (p : ℚ) (amount : ℕ), 0 < p →
      calculateFee fs tokenDecimals (some p) amount =
        min (max ⌊((amount : ℚ) * fs.baseFeeBps) / 10000⌋
              ⌊fs.minFeeUsd / p * (10 : ℚ) ^ tokenDecimals⌋)
          ⌊((amount : ℚ) * fs.maxFeeBps) / 10000⌋) ∧
    (∀ maxBps : ℕ, 1000 ≤ maxBps →
      calculateFee ⟨25, maxBps, 1 / 10⟩ 6 (some 1) 1000000 = 100000) ∧
    calculateFee ⟨25, 500, 1 / 10⟩ 6 (some 1) 1000000 = 50000 := by
  refine ⟨?_, ?_, ?_⟩
  · intro fs tokenDecimals p amount hp
    rw [intFloor_mul_bps, intFloor_mul_bps]
    simp only [calculateFee, convertFromUsd]
    rw [if_neg (ne_of_gt hp)]
  · intro maxBps hmax
    have e1 : calculateFee ⟨25, maxBps, 1 / 10⟩ 6 (some 1) 1000000 =
        min (max ((1000000 * 25 / 10000 : ℕ) : ℤ)
              ⌊(1 : ℚ) / 10 / 1 * (10 : ℚ) ^ (6 : ℕ)⌋)
          ((1000000 * maxBps / 10000 : ℕ) : ℤ) := by
      simp only [calculateFee, convertFromUsd]
      rw [if_neg one_ne_zero]
    rw [e1]
    have e2 : (⌊(1 : ℚ) / 10 / 1 * (10 : ℚ) ^ (6 : ℕ)⌋ : ℤ) = 100000 := by norm_num
    have e3 : (1000000 * 25 / 10000 : ℕ) = 2500 := by norm_num
    rw [e2, e3]
    omega
  · norm_num [calculateFee, convertFromUsd]

/-- C1 counterexample.  Under the repository default fee policy
(baseFeeBps 25, maxFeeBps 500, minFeeUsd 0.10) and usdPrice 1.00, the fee
for amount 1_000_000 on a 6-decimal token is 50000, not the 100000 the
claim asserts: the max-fee cap floor(1_000_000 * 500 / 10000) = 50000
binds below the minimum-fee floor of 100000. -/
theorem fee_example_default_cap_counterexample :
    calculateFee ⟨25, 500, 1 / 10⟩ 6 (some 1) 1000000 ≠ 100000 ∧
    calculateFee ⟨25, 500, 1 / 10⟩ 6 (some 1) 1000000 = 50000 := by
  norm_num [calculateFee, convertFromUsd]

/-- C1 witness: the formula at p = 1 under the default policy, and the
100000 example at the smallest cap that admits it, maxFeeBps = 1000. -/
theorem fee_algorithm_witness :
    (0 : ℚ) < 1 ∧
    calculateFee ⟨25, 500, 1 / 10⟩ 6 (some 1) 1000000 =
      min (max ⌊((1000000 : ℚ) * ((25 : ℕ) : ℚ)) / 10000⌋
            ⌊(1 / 10 : ℚ) / 1 * (10 : ℚ) ^ (6 : ℕ)⌋)
        ⌊((1000000 : ℚ) * ((500 : ℕ) : ℚ)) / 10000⌋ ∧
    calculateFee ⟨25, 1000, 1 / 10⟩ 6 (some 1) 1000000 = 100000 :=
  ⟨by norm_num,
   fee_algorithm_formula_and_example.1 ⟨25, 500, 1 / 10⟩ 6 1 1000000 (by norm_num),
   fee_algorithm_formula_and_example.2.1 1000 (by norm_num)⟩

/-- C2.  Fee bound invariant: for every amount and every well-formed fee
policy (baseFeeBps at most maxFeeBps, as in every shipped configuration),
both fee implementations return a fee with
0 ≤ fee and floor(amount * baseFeeBps / 10000) ≤ fee ≤
floor(amount * maxFeeBps / 10000), whatever the oracle answers. -/
theorem fee_bound_invariant :
    ∀ (fs : FeeSettings) (tokenDecimals : ℕ) (price : Option ℚ) (amount : ℕ),
      fs.baseFeeBps ≤ fs.maxFeeBps →
      (0 ≤ calculateFee fs tokenDecimals price amount ∧
       ⌊((amount : ℚ) * fs.baseFeeBps) / 10000⌋ ≤ calculateFee fs tokenDecimals price amount ∧
       calculateFee fs tokenDecimals price amount ≤ ⌊((amount : ℚ) * fs.maxFeeBps) / 10000⌋) ∧
      (∀ fee : ℤ, nestCalculateFee fs tokenDecimals amount = some fee →
        0 ≤ fee ∧ ⌊((amount : ℚ) * fs.baseFeeBps) / 10000⌋ ≤ fee ∧
        fee ≤ ⌊((amount : ℚ) * fs.maxFeeBps) / 10000⌋) := by
  intro fs tokenDecimals price amount hbm
  have hdiv : amount * fs.baseFeeBps / 10000 ≤ amount * fs.maxFeeBps / 10000 :=
    Nat.div_le_div_right (Nat.mul_le_mul_left amount hbm)
  rw [intFloor_mul_bps, intFloor_mul_bps]
  constructor
  · simpa only [calculateFee] using
      feeClampBounds (amount * fs.baseFeeBps / 10000) (amount * fs.maxFeeBps / 10000)
        (convertFromUsd fs.minFeeUsd tokenDecimals price) hdiv
  · intro fee hfee
    cases hpu : parseUnits fs.minFeeUsd tokenDecimals with
    | none => simp [nestCalculateFee, hpu] at hfee
    | some m =>
      simp only [nestCalculateFee, hpu, Option.some.injEq] at hfee
      subst hfee
      exact feeClampBounds (amount * fs.baseFeeBps / 10000)
        (amount * fs.maxFeeBps / 10000) m hdiv

/-- C2 witness: the bounds at the default policy, price 1,
amount 1_000_000. -/
theorem fee_bound_invariant_witness :
    (25 : ℕ) ≤ 500 ∧
    ⌊((1000000 : ℚ) * ((25 : ℕ) : ℚ)) / 10000⌋ ≤
      calculateFee ⟨25, 500, 1 / 10⟩ 6 (some 1) 1000000 ∧
    calculateFee ⟨25, 500, 1 / 10⟩ 6 (some 1) 1000000 ≤
      ⌊((1000000 : ℚ) * ((500 : ℕ) : ℚ)) / 10000⌋ :=
  ⟨by norm_num,
   ((fee_bound_invariant ⟨25, 500, 1 / 10⟩ 6 (some 1) 1000000 (by norm_num)).1).2.1,
   ((fee_bound_invariant ⟨25, 500, 1 / 10⟩ 6 (some 1) 1000000 (by norm_num)).1).2.2⟩

/-- C9.  Degraded-mode fee: when the oracle yields no price (no feed, a
failed fetch, or a zero price), the minimum-fee floor is skipped and the
fee is the percentage fee alone, still capped by maxFeeBps; the
computation does not fail. -/
theorem degraded_mode_percentage_fee :
    ∀ (fs : FeeSettings) (tokenDecimals amount : ℕ),
      calculateFee fs tokenDecimals none amount =
        min ((amount * fs.baseFeeBps / 10000 : ℕ) : ℤ)
          ((amount * fs.maxFeeBps / 10000 : ℕ) : ℤ) ∧
      calculateFee fs tokenDecimals (some 0) amount =
        min ((amount * fs.baseFeeBps / 10000 : ℕ) : ℤ)
          ((amount * fs.maxFeeBps / 10000 : ℕ) : ℤ) := by
  intro fs tokenDecimals amount
  refine ⟨?_, ?_⟩
  · simp only [calculateFee, convertFromUsd]
    rw [max_eq_left (Int.natCast_nonneg _)]
  · simp only [calculateFee, convertFromUsd, if_true]
    rw [max_eq_left (Int.natCast_nonneg _)]

/-- C10.  The two duplicate fee implementations coincide exactly at
price 1: the NestJS calculateFee floors the minimum fee as
minFeeUsd * 10^decimals without the oracle (whenever parseUnits accepts
minFeeUsd at the token decimals), so it agrees with the Express
calculateFee at oracle price exactly 1; at price 2 with a cap that does
not hide the difference the two return different fees. -/
theorem fee_implementations_price_one :
    (∀ (fs : FeeSettings) (tokenDecimals amount : ℕ),
      (fs.minFeeUsd * (10 : ℚ) ^ tokenDecimals).den = 1 →
      nestCalculateFee fs tokenDecimals amount =
        some (calculateFee fs tokenDecimals (some 1) amount)) ∧
    nestCalculateFee ⟨25, 10000, 1 / 10⟩ 6 1000000 ≠
      some (calculateFee ⟨25, 10000, 1 / 10⟩ 6 (some 2) 1000000) := by
  constructor
  · intro fs tokenDecimals amount hden
    have hfloor : ⌊fs.minFeeUsd / 1 * (10 : ℚ) ^ tokenDecimals⌋ =
        (fs.minFeeUsd * (10 : ℚ) ^ tokenDecimals).num := by
      rw [div_one]
      exact ratFloor_den_one _ hden
    simp only [nestCalculateFee, parseUnits, if_pos hden, calculateFee, convertFromUsd]
    rw [if_neg one_ne_zero, hfloor]
  · norm_num [nestCalculateFee, parseUnits, calculateFee, convertFromUsd]

/-- C10 witness: at the default policy both implementations give the same
fee for amount 1_000_000 at price 1. -/
theorem fee_implementations_price_one_witness :
    (((1 : ℚ) / 10) * (10 : ℚ) ^ (6 : ℕ)).den = 1 ∧
    nestCalculateFee ⟨25, 500, 1 / 10⟩ 6 1000000 =
      some (calculateFee ⟨25, 500, 1 / 10⟩ 6 (some 1) 1000000) :=
  ⟨by norm_num,
   fee_implementations_price_one.1 ⟨25, 500, 1 / 10⟩ 6 1000000 (by norm_num)⟩

/-- C7 (amended).  Gas limit buffering: the estimator returns
gasLimit = floor(rawEstimate * 1.2) — the integer arithmetic
(rawEstimate * 120n) / 100n, rounding down, not ceil — capped at the
chain gas limit; a raw estimate of 100,000 yields 120000 whenever the cap
is at least 120000. -/
theorem gas_buffer_floor_capped :
    (∀ rawEstimate gasLimitCap : ℕ,
      estimateGas rawEstimate gasLimitCap =
        min (⌊(rawEstimate : ℚ) * (120 / 100)⌋₊) gasLimitCap) ∧
    (∀ gasLimitCap : ℕ, 120000 ≤ gasLimitCap →
      estimateGas 100000 gasLimitCap = 120000) := by
  constructor
  · intro rawEstimate gasLimitCap
    have h : (rawEstimate : ℚ) * (120 / 100) =
        ((rawEstimate * 120 : ℕ) : ℚ) / ((100 : ℕ) : ℚ) := by
      push_cast
      ring
    rw [h, Nat.floor_div_nat, Nat.floor_natCast]
    simp only [estimateGas]
    split_ifs with hgt <;> omega
  · intro gasLimitCap hcap
    simp only [estimateGas]
    split_ifs with hgt <;> omega

/-- C7 counterexample.  A raw estimate of 1 with cap 300000: the code
returns floor(1 * 120 / 100) = 1, while the claimed
ceil(1 * 1.2) capped would be 2. -/
theorem gas_buffer_ceil_counterexample :
    estimateGas 1 300000 ≠ min (⌈(1 : ℚ) * (120 / 100)⌉₊) 300000 := by
  have h : (⌈(120 : ℚ) / 100⌉₊ : ℕ) = 2 := by
    rw [Nat.ceil_eq_iff (by norm_num)]
    norm_num
  rw [one_mul, h]
  norm_num [estimateGas]

/-- C7 witness: the 100,000-to-120000 example at the Kadena cap 300000. -/
theorem gas_buffer_floor_capped_witness :
    (120000 : ℕ) ≤ 300000 ∧ estimateGas 100000 300000 = 120000 :=
  ⟨by norm_num, gas_buffer_floor_capped.2 300000 (by norm_num)⟩

/-- C8 (amended).  Price fetch failure: when the cache holds no fresh
entry and the outbound fetch fails, getPrice returns null and leaves the
cache unchanged — it never serves a stale cached quote, attaches no stale
tag, and raises no PriceUnavailableError; callers receive null whether or
not a cached quote exists. -/
theorem price_fetch_failure_returns_none :
    ∀ (cache : Option CacheEntry) (now : ℕ),
      (∀ c : CacheEntry, cache = some c → ¬ (now - c.timestamp < CACHE_DURATION_MS)) →
      getPrice cache now FetchOutcome.failure = (none, cache) := by
  intro cache now hstale
  cases cache with
  | none => rfl
  | some c =>
      simp only [getPrice]
      rw [if_neg (hstale c rfl)]
      rfl

/-- C8 counterexample.  A cached quote of 5 fetched at time 0 is stale at
time 30000; when the fetch then fails, getPrice returns null rather than
the last good cached quote the claim promises. -/
theorem stale_cache_fallback_counterexample :
    getPrice (some ⟨5, 0⟩) 30000 FetchOutcome.failure = (none, some ⟨5, 0⟩) ∧
    (getPrice (some ⟨5, 0⟩) 30000 FetchOutcome.failure).1 ≠ some 5 := by
  exact ⟨rfl, by decide⟩

/-- C8 witness: a stale entry from time 10 at time 40010 with a failing
fetch yields null. -/
theorem price_fetch_failure_returns_none_witness :
    (∀ c : CacheEntry, (some (⟨3, 10⟩ : CacheEntry)) = some c →
      ¬ (40010 - c.timestamp < CACHE_DURATION_MS)) ∧
    getPrice (some ⟨3, 10⟩) 40010 FetchOutcome.failure = (none, some ⟨3, 10⟩) := by
  have h : ∀ c : CacheEntry, (some (⟨3, 10⟩ : CacheEntry)) = some c →
      ¬ (40010 - c.timestamp < CACHE_DURATION_MS) := by
    intro c hc
    cases hc
    decide
  exact ⟨h, price_fetch_failure_returns_none (some ⟨3, 10⟩) 40010 h⟩

/-- Fixed-width big-endian encoding has exactly its width in bytes. -/
theorem toBytesBE_length : ∀ (width value : ℕ), (toBytesBE width value).length = width := by
  intro width
  induction width with
  | zero => intro value; rfl
  | succ w ih =>
      intro value
      simp [toBytesBE, ih]

/-- The packed transfer message is 4 addresses and 4 uint256 values:
4 * 20 + 4 * 32 = 208 bytes. -/
theorem packedTransferMessage_length
    (contractAddress fromAddr toAddr token amount fee nonce deadline : ℕ) :
    (packedTransferMessage contractAddress fromAddr toAddr token amount fee
      nonce deadline).length = 208 := by
  simp [packedTransferMessage, encAddress, encUint256, toBytesBE_length]

/-- The EIP-191 envelope of a 32-byte message carries the same header
bytes that generateMessageHash packs in front of the message hash. -/
theorem eip191Header32 :
    asciiBytes ("\x19Ethereum Signed Message:\n" ++ toString (32 : ℕ)) =
      asciiBytes "\x19Ethereum Signed Message:\n32" := by
  decide

/-- C6.  Packed-hash signature scheme: generateMessageHash returns the
keccak256 of the 208-byte packed encoding of (contractAddress, from, to,
token, amount, fee, nonce, deadline) together with the keccak256 of that
hash wrapped in the "\x19Ethereum Signed Message:\n32" envelope, and
verifySignature recovers the signer over exactly that prefixed hash and
returns true precisely when an address is recovered that equals the
expected signer after lowercasing both sides. -/
theorem packed_hash_signature_scheme :
    ∀ (keccak256 : List ℕ → List ℕ) (ecrecover : List ℕ → List ℕ → Option String)
      (contractAddress fromAddr toAddr token amount fee nonce deadline : ℕ),
      (generateMessageHash keccak256 contractAddress fromAddr toAddr token
          amount fee nonce deadline).messageHash =
        keccak256 (packedTransferMessage contractAddress fromAddr toAddr token
          amount fee nonce deadline) ∧
      (generateMessageHash keccak256 contractAddress fromAddr toAddr token
          amount fee nonce deadline).ethSignedMessageHash =
        keccak256 (asciiBytes "\x19Ethereum Signed Message:\n32" ++
          keccak256 (packedTransferMessage contractAddress fromAddr toAddr token
            amount fee nonce deadline)) ∧
      (packedTransferMessage contractAddress fromAddr toAddr token amount fee
        nonce deadline).length = 208 ∧
      ((keccak256 (packedTransferMessage contractAddress fromAddr toAddr token
          amount fee nonce deadline)).length = 32 →
        ∀ (signature : List ℕ) (expectedSigner : String),
          (verifySignature keccak256 ecrecover
              (generateMessageHash keccak256 contractAddress fromAddr toAddr token
                amount fee nonce deadline).messageHash signature expectedSigner = true ↔
            ∃ addr,
              ecrecover ((generateMessageHash keccak256 contractAddress fromAddr
                  toAddr token amount fee nonce deadline).ethSignedMessageHash)
                signature = some addr ∧
              addr.toLower = expectedSigner.toLower)) := by
  intro keccak256 ecrecover contractAddress fromAddr toAddr token amount fee nonce deadline
  refine ⟨rfl, rfl, packedTransferMessage_length _ _ _ _ _ _ _ _, ?_⟩
  intro hlen signature expectedSigner
  have henv : eip191Envelope (keccak256 (packedTransferMessage contractAddress
      fromAddr toAddr token amount fee nonce deadline)) =
      asciiBytes "\x19Ethereum Signed Message:\n32" ++
        keccak256 (packedTransferMessage contractAddress fromAddr toAddr token
          amount fee nonce deadline) := by
    simp only [eip191Envelope]
    rw [hlen, eip191Header32]
  simp only [verifySignature, generateMessageHash, henv]
  cases hrec : ecrecover (keccak256 (asciiBytes "\x19Ethereum Signed Message:\n32" ++
      keccak256 (packedTransferMessage contractAddress fromAddr toAddr token
        amount fee nonce deadline))) signature with
  | none => simp
  | some recovered => simp [decide_eq_true_eq]

/-- C6 witness: a stub hash of constant length 32 and a stub recoverer
instantiate the equivalence at concrete inputs. -/
theorem packed_hash_signature_scheme_witness :
    ((fun _bytes => List.replicate 32 0) (packedTransferMessage 1 2 3 4 5 6 7 8) :
        List ℕ).length = 32 ∧
    (verifySignature (fun _bytes => List.replicate 32 0) (fun _h _s => some "0xAB")
        (generateMessageHash (fun _bytes => List.replicate 32 0) 1 2 3 4 5 6 7
          8).messageHash [] "0xab" = true ↔
      ∃ addr,
        (fun _h _s => some "0xAB" : List ℕ → List ℕ → Option String)
            ((generateMessageHash (fun _bytes => List.replicate 32 0) 1 2 3 4 5 6 7
              8).ethSignedMessageHash) [] = some addr ∧
        addr.toLower = "0xab".toLower) :=
  ⟨rfl,
   (packed_hash_signature_scheme (fun _bytes => List.replicate 32 0)
      (fun _h _s => some "0xAB") 1 2 3 4 5 6 7 8).2.2.2 rfl [] "0xab"⟩

/-- A recorded idempotency key forces checkReplayProtection to answer
false. -/
theorem checkReplay_false_of_mem (env : ChainEnv) (processed : List String)
    (req : RelayRequest)
    (h : txKey req.chainId req.request.fromAddress req.request.transactionNonce ∈ processed) :
    (checkReplayProtection env processed req).1 = false := by
  simp [checkReplayProtection, h]

/-- A request whose idempotency key is already recorded cannot reach the
success branch of relayStandardTransfer. -/
theorem relayStandard_reject_of_mem (env : ChainEnv) (processed : List String)
    (req : RelayRequest)
    (h : txKey req.chainId req.request.fromAddress req.request.transactionNonce ∈ processed) :
    (relayStandardTransfer env processed req).response.success = false := by
  have hc := checkReplay_false_of_mem env processed req h
  simp only [relayStandardTransfer]
  split_ifs with h1 h2 h3 h4 h5
  all_goals first
    | rfl
    | exact absurd (by simp [hc]) h3

/-- A successful standard relay records exactly the idempotency key of the
request on top of the previous set. -/
theorem relayStandard_success_processed (env : ChainEnv) (processed : List String)
    (req : RelayRequest)
    (h : (relayStandardTransfer env processed req).response.success = true) :
    (relayStandardTransfer env processed req).processed =
      txKey req.chainId req.request.fromAddress req.request.transactionNonce :: processed := by
  simp only [relayStandardTransfer] at h ⊢
  split_ifs at h ⊢
  simp_all

/-- C3.  Replay guard: checkReplayProtection allows a request exactly when
the idempotency key chainId:fromAddress:nonce is not recorded and the
submitted nonce equals the current on-chain nonce (so a merely greater
nonce is rejected); and after any successful standard relay the key is
recorded, so a second request with the same key is rejected whatever the
chain answers then. -/
theorem replay_guard_iff_and_idempotency :
    (∀ (env : ChainEnv) (processed : List String) (req : RelayRequest),
      ((checkReplayProtection env processed req).1 = true ↔
        (txKey req.chainId req.request.fromAddress req.request.transactionNonce ∉ processed ∧
         env.onChainNonce = req.request.transactionNonce))) ∧
    (∀ (env env2 : ChainEnv) (processed : List String) (req : RelayRequest),
      (relayStandardTransfer env processed req).response.success = true →
      (relayStandardTransfer env2
        (relayStandardTransfer env processed req).processed req).response.success = false) := by
  constructor
  · intro env processed req
    simp only [checkReplayProtection]
    split_ifs with hc
    · have hmem : txKey req.chainId req.request.fromAddress req.request.transactionNonce
          ∈ processed := by simpa using hc
      simp [hmem]
    · have hmem : txKey req.chainId req.request.fromAddress req.request.transactionNonce
          ∉ processed := by simpa using hc
      simp [hmem]
  · intro env env2 processed req hsucc
    rw [relayStandard_success_processed env processed req hsucc]
    exact relayStandard_reject_of_mem env2 _ req (List.mem_cons_self _ _)

/-- C3 witness: a concrete successful relay followed by an identical
request, which is rejected. -/
theorem replay_guard_witness :
    (relayStandardTransfer ⟨true, true, 7, true, true, 1000⟩ []
        ⟨1, ⟨"0xa", "0xb", "0xc", 100, 1, 7, 2000⟩, none, "sig"⟩).response.success = true ∧
    (relayStandardTransfer ⟨true, true, 7, true, true, 1000⟩
        (relayStandardTransfer ⟨true, true, 7, true, true, 1000⟩ []
          ⟨1, ⟨"0xa", "0xb", "0xc", 100, 1, 7, 2000⟩, none, "sig"⟩).processed
        ⟨1, ⟨"0xa", "0xb", "0xc", 100, 1, 7, 2000⟩, none, "sig"⟩).response.success = false :=
  ⟨rfl,
   replay_guard_iff_and_idempotency.2 ⟨true, true, 7, true, true, 1000⟩
     ⟨true, true, 7, true, true, 1000⟩ []
     ⟨1, ⟨"0xa", "0xb", "0xc", 100, 1, 7, 2000⟩, none, "sig"⟩ rfl⟩

/-- C4 (amended).  Deadline ordering: an expired deadline (deadline at or
before now) is rejected before gas estimation and submission, but only
after signature verification and after the on-chain nonce read performed
by the replay check — the rejection happens after one network call, the
nonce read, not before any network call. -/
theorem deadline_after_nonce_read :
    ∀ (env : ChainEnv) (processed : List String) (req : RelayRequest),
      env.chainSupported = true → env.signatureValid = true →
      (checkReplayProtection env processed req).1 = true →
      req.request.expirationDeadline ≤ env.now →
      relayStandardTransfer env processed req =
        ⟨⟨false, "Transaction deadline expired"⟩, processed, [NetCall.nonceRead]⟩ := by
  intro env processed req hchain hsig hreplay hdl
  have hcalls : (checkReplayProtection env processed req).2 = [NetCall.nonceRead] := by
    simp only [checkReplayProtection] at hreplay ⊢
    split_ifs at hreplay ⊢ with hc
    rfl
  simp [relayStandardTransfer, hchain, hsig, hreplay, hdl, hcalls]

/-- C4 counterexample.  With deadline = now - 1 and an otherwise valid
request, the pipeline does reject with the expired-deadline message, but
its trace already contains the on-chain nonce read — the rejection is not
made before any network call as the claim states. -/
theorem deadline_before_network_counterexample :
    (relayStandardTransfer ⟨true, true, 7, true, true, 1000⟩ []
        ⟨1, ⟨"0xa", "0xb", "0xc", 100, 1, 7, 999⟩, none, "sig"⟩).response =
      ⟨false, "Transaction deadline expired"⟩ ∧
    NetCall.nonceRead ∈ (relayStandardTransfer ⟨true, true, 7, true, true, 1000⟩ []
        ⟨1, ⟨"0xa", "0xb", "0xc", 100, 1, 7, 999⟩, none, "sig"⟩).calls := by
  exact ⟨rfl, by decide⟩

/-- C4 witness: the expired-deadline rejection at a concrete input, with
the nonce read as the only network call. -/
theorem deadline_after_nonce_read_witness :
    (⟨true, true, 7, true, true, 1000⟩ : ChainEnv).chainSupported = true ∧
    (checkReplayProtection ⟨true, true, 7, true, true, 1000⟩ []
        ⟨1, ⟨"0xd", "0xe", "0xf", 50, 1, 7, 999⟩, none, "sig"⟩).1 = true ∧
    relayStandardTransfer ⟨true, true, 7, true, true, 1000⟩ []
        ⟨1, ⟨"0xd", "0xe", "0xf", 50, 1, 7, 999⟩, none, "sig"⟩ =
      ⟨⟨false, "Transaction deadline expired"⟩, [], [NetCall.nonceRead]⟩ :=
  ⟨rfl, rfl,
   deadline_after_nonce_read ⟨true, true, 7, true, true, 1000⟩ []
     ⟨1, ⟨"0xd", "0xe", "0xf", 50, 1, 7, 999⟩, none, "sig"⟩ rfl rfl rfl (by decide)⟩

/-- C5 (amended).  Permit path: relayPermitTransfer requires permit data
to be present, rejecting without any network call otherwise, but it never
invokes checkPermitSupport: its entire behaviour is independent of
whether the token supports ERC-2612, and no permit-support check appears
in its network trace — an unsupported token is not rejected with
PermitUnsupportedError by the relayer. -/
theorem permit_support_never_checked :
    (∀ (env : ChainEnv) (processed : List String) (req : RelayRequest) (b : Bool),
      relayPermitTransfer { env with permitSupported := b } processed req =
        relayPermitTransfer env processed req) ∧
    (∀ (env : ChainEnv) (processed : List String) (req : RelayRequest),
      NetCall.permitSupportCheck ∉ (relayPermitTransfer env processed req).calls) ∧
    (∀ (env : ChainEnv) (processed : List String) (req : RelayRequest),
      req.permit = none →
      relayPermitTransfer env processed req =
        ⟨⟨false, "Permit data required for permit-based transfer"⟩, processed, []⟩) := by
  refine ⟨?_, ?_, ?_⟩
  · intro env processed req b
    rfl
  · intro env processed req
    rcases hperm : req.permit with _ | pd
    · simp [relayPermitTransfer, hperm]
    · simp only [relayPermitTransfer, hperm, checkReplayProtection]
      split_ifs <;> simp
  · intro env processed req hperm
    simp only [relayPermitTransfer, hperm]

/-- C5 counterexample.  A permit transfer on a token that the chain
reports as lacking ERC-2612 support passes every relayer-side check and
is submitted successfully; no permit-support check is ever made, so no
PermitUnsupportedError precedes signature or submission work. -/
theorem permit_unsupported_counterexample :
    (relayPermitTransfer ⟨true, true, 7, false, true, 1000⟩ []
        ⟨1, ⟨"0xa", "0xb", "0xc", 100, 1, 7, 2000⟩,
          some ⟨100, 2000, 27, "0xr", "0xs"⟩, "sig"⟩).response.success = true ∧
    NetCall.permitSupportCheck ∉
      (relayPermitTransfer ⟨true, true, 7, false, true, 1000⟩ []
        ⟨1, ⟨"0xa", "0xb", "0xc", 100, 1, 7, 2000⟩,
          some ⟨100, 2000, 27, "0xr", "0xs"⟩, "sig"⟩).calls := by
  exact ⟨rfl, by decide⟩

/-- C5 witness: a permit request without permit data is rejected with no
network call made. -/
theorem permit_support_never_checked_witness :
    (⟨1, ⟨"0xa", "0xb", "0xc", 100, 1, 7, 2000⟩, none, "sig"⟩ : RelayRequest).permit = none ∧
    relayPermitTransfer ⟨true, true, 7, true, true, 1000⟩ []
        ⟨1, ⟨"0xa", "0xb", "0xc", 100, 1, 7, 2000⟩, none, "sig"⟩ =
      ⟨⟨false, "Permit data required for permit-based transfer"⟩, [], []⟩ :=
  ⟨rfl,
   permit_support_never_checked.2.2 ⟨true, true, 7, true, true, 1000⟩ []
     ⟨1, ⟨"0xa", "0xb", "0xc", 100, 1, 7, 2000⟩, none, "sig"⟩ rfl⟩
